import Mathlib

/-!
Verification of the streaming markdown pipeline of `go-template-streaming`.

The program (src/main.go, src/streaming.go, src/streaming-string.go,
src/unnamed/part_002) streams rows from a SQLite table through an unbuffered
Go channel into a `text/template` renderer, coordinated by an `errgroup`.
We embed:

  * the `User` record and the two template constants (`markdownTemplate`,
    `markdownStringTemplate`) as pure rendering functions;
  * the non-streaming `generateMarkdown` as a pure function over injected
    failure outcomes of its I/O calls;
  * Go channel close semantics (`closeChan`): closing a closed channel panics;
  * the concurrent streaming pipeline of `generateStreamingMarkdown` /
    `generateStreamingStringMarkdown` as a small-step transition system
    (`Step`) over `PipeState`: a producer goroutine that iterates a row
    cursor and sends each row on an unbuffered channel, a consumer goroutine
    that renders each received row, the `errgroup` bookkeeping (first error
    wins, context cancelled once any goroutine returns an error), and the
    single deferred close of the channel.

The transition system is parametric in the item type `A` and the per-item
rendering function `render`; `generateStreamingMarkdown` instantiates it with
`User` and `renderUserRow`, `generateStreamingStringMarkdown` with `String`
and `stringTemplateItem`.
-/

/-- The `User` struct of src/main.go lines 24-31: six text fields. -/
structure User where
  email : String
  firstName : String
  lastName : String
  address : String
  city : String
  zip : String
deriving DecidableEq

/-- Terminal pipeline failures, following the spec's error taxonomy:
source open/read failures arise in the producer, sink write failures in the
consumer (writes to stdout through `tmpl.Execute`), and profile-write
failures in `writeProfile` (os.Create / pprof.WriteHeapProfile). -/
inductive Err where
  | sourceOpen
  | sourceRead
  | sinkWrite
  | renderFail
  | profileWrite
deriving DecidableEq

/-- The constant text of `markdownTemplate` (src/main.go lines 44-49) that
precedes the `{{range .}}` action: a leading newline, the header line and
the separator line, each terminated by a newline. -/
def markdownHeader : String :=
  "\n| Email | First Name | Last Name | Address | City | Zip |\n|-------|------------|-----------|---------|------|-----|\n"

/-- The body of the `{{range .}}...{{end}}` action of `markdownTemplate`
(src/main.go lines 47-48): for each user, a newline followed by the
pipe-delimited row with a space around each field. -/
def renderUserRow (u : User) : String :=
  "\n| " ++ u.email ++ " | " ++ u.firstName ++ " | " ++ u.lastName ++ " | "
    ++ u.address ++ " | " ++ u.city ++ " | " ++ u.zip ++ " |"

/-- Full expansion of `markdownTemplate` over a list of users: constant
header, one row body per user, and the template's trailing newline. -/
def renderMarkdownTemplate (users : List User) : String :=
  markdownHeader ++ String.join (users.map renderUserRow) ++ "\n"

/-- The body of the `{{range .}}|{{.}}|{{end}}` action of
`markdownStringTemplate` (src/streaming-string.go lines 14-18): each
pre-formatted line is wrapped in a pair of pipes, with no added spaces and
no newline between items. -/
def stringTemplateItem (s : String) : String :=
  "|" ++ s ++ "|"

/-- Full expansion of `markdownStringTemplate` over a list of pre-formatted
lines (src/streaming-string.go lines 14-18). -/
def renderStringMarkdownTemplate (lines : List String) : String :=
  markdownHeader ++ String.join (lines.map stringTemplateItem) ++ "\n"

/-- The SQL projection of `generateStreamingStringMarkdown`
(src/streaming-string.go line 33): the row's six fields concatenated with a
bare `|` between consecutive fields and no surrounding spaces. -/
def sqlRowString (u : User) : String :=
  u.email ++ "|" ++ u.firstName ++ "|" ++ u.lastName ++ "|" ++ u.address
    ++ "|" ++ u.city ++ "|" ++ u.zip

/-- The single row of the spec's end-to-end scenario. -/
def c6user : User :=
  { email := "a@x.com", firstName := "A", lastName := "B",
    address := "1 St", city := "C", zip := "00000" }

/-- A Go channel, reduced to what close semantics need: its buffered
contents and whether it has been closed. -/
structure Chan (A : Type) where
  buf : List A
  isClosed : Bool
deriving DecidableEq

/-- Outcome of `close(c)` in Go: either the channel with its closed flag
set, or a runtime panic. -/
inductive CloseResult (A : Type) where
  | ok (c : Chan A)
  | panicked
deriving DecidableEq

/-- Go's `close` builtin: closing an already-closed channel panics
("close of closed channel"); otherwise the closed flag is set. -/
def closeChan {A : Type} (c : Chan A) : CloseResult A :=
  if c.isClosed then CloseResult.panicked
  else CloseResult.ok { c with isClosed := true }

/-- `writeProfile` (src/unnamed/part_002 lines 52-71): `os.Create` may fail
(`createErr`), then `pprof.WriteHeapProfile` may fail (`heapErr`); the first
failure is returned, otherwise nil. -/
def writeProfile (createErr heapErr : Option Err) : Option Err :=
  match createErr with
  | some e => some e
  | none => heapErr

/-- `generateMarkdown` (src/main.go lines 186-227), as a function of the
outcomes of its fallible calls: `sql.Open` (`openErr`), `db.Query`
(`queryErr`), the scan loop (`scanErr`), `tmpl.Execute` (`execErr`) and
`writeProfile` (`createErr`, `heapErr`).  Mirroring the source, the result
of `tmpl.Execute` is assigned to `err` and then `err` is immediately
reassigned from `writeProfile` without being checked, so `execErr` never
reaches the return value. -/
def generateMarkdown (openErr queryErr scanErr execErr createErr heapErr : Option Err) :
    Option Err :=
  match openErr with
  | some e => some e
  | none =>
    match queryErr with
    | some e => some e
    | none =>
      match scanErr with
      | some e => some e
      | none =>
        let err := execErr
        let err := writeProfile createErr heapErr
        match err with
        | some e => some e
        | none => none

/-- Control state of the producer goroutine of `generateStreamingMarkdown`
(src/streaming.go lines 19-41): about to call `rows.Next()` with `remaining`
rows left in the cursor and `tailErr` the failure the cursor yields after
them (`none` = clean exhaustion); about to execute `c <- item` for a scanned
row; or returned with result `res` (its deferred `close(c)` has run). -/
inductive ProdState (A : Type) where
  | fetch (remaining : List A) (tailErr : Option Err)
  | send (item : A) (remaining : List A) (tailErr : Option Err)
  | done (res : Option Err)

/-- Control state of the consumer goroutine (src/streaming.go lines 43-53):
still ranging over the channel with `rendered` the row bodies written so
far, or returned with result `res`. -/
inductive ConsState where
  | run (rendered : List String)
  | done (rendered : List String) (res : Option Err)

/-- Row bodies the consumer has written so far. -/
def rendered : ConsState → List String
  | ConsState.run out => out
  | ConsState.done out _ => out

/-- `errgroup`'s error bookkeeping: only the first non-nil error returned by
a goroutine is retained. -/
def report (fe r : Option Err) : Option Err :=
  match fe with
  | some e => some e
  | none => r

/-- Global state of one streaming pipeline run: the two goroutines, the
`errgroup`'s first recorded error (the shared context is cancelled exactly
when it is `some`), the channel's closed flag, how many times `close(c)` has
executed, and the histories of items sent on and received from the channel. -/
structure PipeState (A : Type) where
  prod : ProdState A
  cons : ConsState
  firstErr : Option Err
  chanClosed : Bool
  closeCount : Nat
  pushed : List A
  popped : List A

/-- Start of a run: producer about to iterate the cursor (`rows` then
`tailErr`), consumer ranging with nothing rendered, no error, channel open.
A `sql.Open`/`QueryContext` failure is the instance `rows = []`,
`tailErr = some e`: the producer returns the error before sending anything,
its deferred close still runs. -/
def init {A : Type} (rows : List A) (tailErr : Option Err) : PipeState A :=
  ⟨ProdState.fetch rows tailErr, ConsState.run [], none, false, 0, [], []⟩

/-- Small-step semantics of one streaming run, parametric in the per-item
rendering function.  Faithful to src/streaming.go:

* `fetchRow`: context not cancelled, `rows.Next()` yields a row, `Scan`
  succeeds; the producer proceeds to the unconditional send `c <- item`.
* `fetchEOF`: context not cancelled, the cursor is exhausted; the producer
  returns `tailErr` (nil or the read error), the `errgroup` records it, the
  deferred `close(c)` runs.
* `fetchCancelled`: the context is cancelled (some goroutine already
  returned an error), so `rows.Next()` reports false; the loop exits and the
  producer returns nil — `rows.Err()` is never consulted — and the deferred
  `close(c)` runs.
* `handoffOk`: the rendezvous on the unbuffered channel: the send `c <- item`
  completes exactly when the ranging consumer receives, and the consumer
  writes the item's row body.  Note the send itself has no guard on the
  cancellation signal.
* `handoffFail`: the rendezvous completes but writing the row body to the
  sink fails; `tmpl.Execute` stops and the consumer returns the write error.
* `consFail`: a sink write not tied to a receive (e.g. the constant header)
  fails; the consumer returns the write error.
* `consEOS`: the channel is closed and drained, the `range` ends,
  `tmpl.Execute` returns nil and so does the consumer goroutine. -/
inductive Step {A : Type} (render : A → String) : PipeState A → PipeState A → Prop where
  | fetchRow (a : A) (rest : List A) (te : Option Err) (cons : ConsState)
      (cl : Bool) (cc : Nat) (pu po : List A) :
      Step render ⟨ProdState.fetch (a :: rest) te, cons, none, cl, cc, pu, po⟩
        ⟨ProdState.send a rest te, cons, none, cl, cc, pu, po⟩
  | fetchEOF (te : Option Err) (cons : ConsState) (cl : Bool) (cc : Nat) (pu po : List A) :
      Step render ⟨ProdState.fetch [] te, cons, none, cl, cc, pu, po⟩
        ⟨ProdState.done te, cons, te, true, cc + 1, pu, po⟩
  | fetchCancelled (rem : List A) (te : Option Err) (e : Err) (cons : ConsState)
      (cl : Bool) (cc : Nat) (pu po : List A) :
      Step render ⟨ProdState.fetch rem te, cons, some e, cl, cc, pu, po⟩
        ⟨ProdState.done none, cons, some e, true, cc + 1, pu, po⟩
  | handoffOk (a : A) (rest : List A) (te : Option Err) (out : List String)
      (fe : Option Err) (cl : Bool) (cc : Nat) (pu po : List A) :
      Step render ⟨ProdState.send a rest te, ConsState.run out, fe, cl, cc, pu, po⟩
        ⟨ProdState.fetch rest te, ConsState.run (out ++ [render a]), fe, cl, cc,
          pu ++ [a], po ++ [a]⟩
  | handoffFail (a : A) (rest : List A) (te : Option Err) (out : List String)
      (fe : Option Err) (cl : Bool) (cc : Nat) (pu po : List A) :
      Step render ⟨ProdState.send a rest te, ConsState.run out, fe, cl, cc, pu, po⟩
        ⟨ProdState.fetch rest te, ConsState.done out (some Err.sinkWrite),
          report fe (some Err.sinkWrite), cl, cc, pu ++ [a], po ++ [a]⟩
  | consFail (prod : ProdState A) (out : List String) (fe : Option Err)
      (cl : Bool) (cc : Nat) (pu po : List A) :
      Step render ⟨prod, ConsState.run out, fe, cl, cc, pu, po⟩
        ⟨prod, ConsState.done out (some Err.sinkWrite),
          report fe (some Err.sinkWrite), cl, cc, pu, po⟩
  | consEOS (r : Option Err) (out : List String) (fe : Option Err) (cc : Nat)
      (pu po : List A) :
      Step render ⟨ProdState.done r, ConsState.run out, fe, true, cc, pu, po⟩
        ⟨ProdState.done r, ConsState.done out none, fe, true, cc, pu, po⟩

/-- Reachability of a pipeline state from another by zero or more steps. -/
abbrev Reachable {A : Type} (render : A → String) : PipeState A → PipeState A → Prop :=
  Relation.ReflTransGen (Step render)

/-- A completed run: both goroutines have returned, so `eg.Wait()` unblocks. -/
def Terminal {A : Type} (s : PipeState A) : Prop :=
  (∃ r, s.prod = ProdState.done r) ∧ ∃ out r, s.cons = ConsState.done out r

/-- Capacity of the handoff channel: `make(chan User)` / `make(chan string)`
(src/streaming.go line 17, src/streaming-string.go line 23) is unbuffered. -/
def chanCapacity : Nat := 0

/-- Items currently buffered inside the channel. -/
def inFlight {A : Type} (s : PipeState A) : Nat :=
  s.pushed.length - s.popped.length

/-- Rows fetched from the row source so far: every pushed item was fetched,
plus the one a pending send is holding. -/
def fetchedRows {A : Type} (s : PipeState A) : Nat :=
  s.pushed.length + (match s.prod with | ProdState.send _ _ _ => 1 | _ => 0)

/-- The value `generateStreamingMarkdown` returns, given the terminal
pipeline state and the outcome of the trailing `writeProfile` call
(src/streaming.go lines 55-65): `err := eg.Wait()` is the first recorded
error and is returned if non-nil; otherwise the `writeProfile` outcome is
returned if non-nil; otherwise nil. -/
def streamingRunResult {A : Type} (s : PipeState A) (profileErr : Option Err) : Option Err :=
  match s.firstErr with
  | some e => some e
  | none => profileErr

/-- The render function used to instantiate witness runs of the generic
pipeline over a trivial item type. -/
def rowText : Unit → String := fun _ => "row"

/-- Inductive invariant of the streaming pipeline, established at `init` and
preserved by every `Step`.  It records: the rendezvous channel never holds
an item (`popEq`); sends follow cursor order (`pushPrefix`, `prodFetch`,
`prodSend`); the consumer's output tracks the received items exactly while
it runs and is a prefix of them once it stopped (`consRun`, `consClean`,
`consPrefix`); the consumer can only fail with its own sink-write error
(`consResOk`, `consErrSet`); the channel is closed exactly when the producer
has returned, and close ran at most once (`closedIff`, `countEq`); the
producer's returned error is recorded by the errgroup (`prodDone`,
`prodErr`); and a recorded error always comes from a goroutine that has
returned (`errTask`). -/
structure PipeInv {A : Type} (render : A → String) (rows : List A) (te : Option Err)
    (s : PipeState A) : Prop where
  popEq : s.popped = s.pushed
  pushPrefix : s.pushed <+: rows
  consRun : ∀ out, s.cons = ConsState.run out → out = List.map render s.popped
  consClean : ∀ out, s.cons = ConsState.done out none → out = List.map render s.popped
  consPrefix : ∀ out r, s.cons = ConsState.done out r → out <+: List.map render s.popped
  consResOk : ∀ out r, s.cons = ConsState.done out r → r = none ∨ r = some Err.sinkWrite
  consErrSet : ∀ out e, s.cons = ConsState.done out (some e) → s.firstErr ≠ none
  closedIff : s.chanClosed = true ↔ ∃ r, s.prod = ProdState.done r
  countEq : s.closeCount = if s.chanClosed = true then 1 else 0
  prodFetch : ∀ rem te', s.prod = ProdState.fetch rem te' → te' = te ∧ rows = s.pushed ++ rem
  prodSend : ∀ a rem te', s.prod = ProdState.send a rem te' →
    te' = te ∧ rows = s.pushed ++ a :: rem
  prodDone : ∀ r, s.prod = ProdState.done r →
    (r = te ∧ s.pushed = rows) ∨ (r = none ∧ s.firstErr ≠ none)
  prodErr : ∀ e, s.prod = ProdState.done (some e) → s.firstErr = some e
  errTask : ∀ e, s.firstErr = some e →
    s.prod = ProdState.done (some e) ∨ ∃ out, s.cons = ConsState.done out (some Err.sinkWrite)

theorem report_none (r : Option Err) : report none r = r := rfl

theorem report_some (e : Err) (r : Option Err) : report (some e) r = some e := rfl

theorem rendered_run (out : List String) : rendered (ConsState.run out) = out := rfl

theorem rendered_done (out : List String) (r : Option Err) :
    rendered (ConsState.done out r) = out := rfl

theorem prefixMap {A B : Type} (f : A → B) {l₁ l₂ : List A} (h : l₁ <+: l₂) :
    List.map f l₁ <+: List.map f l₂ := by
  obtain ⟨t, ht⟩ := h
  exact ⟨List.map f t, by rw [← List.map_append, ht]⟩

theorem pipeInv_init {A : Type} (render : A → String) (rows : List A) (te : Option Err) :
    PipeInv render rows te (init rows te) where
  popEq := rfl
  pushPrefix := ⟨rows, rfl⟩
  consRun := fun out h => by injection h with h1; rw [← h1]; rfl
  consClean := fun out h => ConsState.noConfusion h
  consPrefix := fun out r h => ConsState.noConfusion h
  consResOk := fun out r h => ConsState.noConfusion h
  consErrSet := fun out e h => ConsState.noConfusion h
  closedIff := ⟨fun h => Bool.noConfusion h, fun ⟨r, hr⟩ => ProdState.noConfusion hr⟩
  countEq := rfl
  prodFetch := fun rem te' h => by injection h with h1 h2; exact ⟨h2.symm, h1 ▸ rfl⟩
  prodSend := fun a rem te' h => ProdState.noConfusion h
  prodDone := fun r h => ProdState.noConfusion h
  prodErr := fun e h => ProdState.noConfusion h
  errTask := fun e h => Option.noConfusion h

theorem pipeInv_step {A : Type} {render : A → String} {rows : List A} {te : Option Err}
    {s s' : PipeState A} (hInv : PipeInv render rows te s) (hStep : Step render s s') :
    PipeInv render rows te s' := by
  cases hStep with
  | fetchRow a rest te0 cons cl cc pu po =>
    have hps : te0 = te ∧ rows = pu ++ (a :: rest) := hInv.prodFetch (a :: rest) te0 rfl
    refine
      { popEq := hInv.popEq
        pushPrefix := hInv.pushPrefix
        consRun := hInv.consRun
        consClean := hInv.consClean
        consPrefix := hInv.consPrefix
        consResOk := hInv.consResOk
        consErrSet := hInv.consErrSet
        closedIff := ?_
        countEq := hInv.countEq
        prodFetch := ?_
        prodSend := ?_
        prodDone := ?_
        prodErr := ?_
        errTask := ?_ }
    · constructor
      · intro h
        rcases hInv.closedIff.mp h with ⟨r, hr⟩
        exact ProdState.noConfusion hr
      · rintro ⟨r, hr⟩
        exact ProdState.noConfusion hr
    · intro rem te' h
      exact ProdState.noConfusion h
    · intro a' rem te' h
      injection h with h1 h2 h3
      subst h1; subst h2; subst h3
      exact hps
    · intro r h
      exact ProdState.noConfusion h
    · intro e h
      exact ProdState.noConfusion h
    · intro e h
      exact Option.noConfusion h
  | fetchEOF te0 cons cl cc pu po =>
    have hps : te0 = te ∧ rows = pu ++ [] := hInv.prodFetch [] te0 rfl
    have hrows : pu = rows := by
      have := hps.2
      simpa using this.symm
    have hcl : cl = false := by
      cases hcl0 : cl with
      | false => rfl
      | true =>
        rcases hInv.closedIff.mp hcl0 with ⟨r, hr⟩
        exact ProdState.noConfusion hr
    have hcc : cc = 0 := by
      have := hInv.countEq
      rwa [hcl, if_neg (by simp)] at this
    refine
      { popEq := hInv.popEq
        pushPrefix := hInv.pushPrefix
        consRun := hInv.consRun
        consClean := hInv.consClean
        consPrefix := hInv.consPrefix
        consResOk := hInv.consResOk
        consErrSet := ?_
        closedIff := ⟨fun _ => ⟨te0, rfl⟩, fun _ => rfl⟩
        countEq := by simp [hcc]
        prodFetch := ?_
        prodSend := ?_
        prodDone := ?_
        prodErr := ?_
        errTask := ?_ }
    · intro out e h
      exact absurd rfl (hInv.consErrSet out e h)
    · intro rem te' h
      exact ProdState.noConfusion h
    · intro a rem te' h
      exact ProdState.noConfusion h
    · intro r h
      injection h with h1
      exact Or.inl ⟨h1.symm.trans hps.1, hrows⟩
    · intro e h
      exact ProdState.done.inj h
    · intro e h
      exact Or.inl (congrArg ProdState.done h)
  | fetchCancelled rem te0 e0 cons cl cc pu po =>
    have hcl : cl = false := by
      cases hcl0 : cl with
      | false => rfl
      | true =>
        rcases hInv.closedIff.mp hcl0 with ⟨r, hr⟩
        exact ProdState.noConfusion hr
    have hcc : cc = 0 := by
      have := hInv.countEq
      rwa [hcl, if_neg (by simp)] at this
    have hcons : ∃ out, cons = ConsState.done out (some Err.sinkWrite) := by
      rcases hInv.errTask e0 rfl with h | h
      · exact absurd h (fun h => ProdState.noConfusion h)
      · exact h
    refine
      { popEq := hInv.popEq
        pushPrefix := hInv.pushPrefix
        consRun := hInv.consRun
        consClean := hInv.consClean
        consPrefix := hInv.consPrefix
        consResOk := hInv.consResOk
        consErrSet := fun out e h hn => Option.noConfusion hn
        closedIff := ⟨fun _ => ⟨none, rfl⟩, fun _ => rfl⟩
        countEq := by simp [hcc]
        prodFetch := ?_
        prodSend := ?_
        prodDone := ?_
        prodErr := ?_
        errTask := ?_ }
    · intro rem' te' h
      exact ProdState.noConfusion h
    · intro a rem' te' h
      exact ProdState.noConfusion h
    · intro r h
      injection h with h1
      exact Or.inr ⟨h1.symm, fun hn => Option.noConfusion hn⟩
    · intro e h
      injection h with h1
      exact Option.noConfusion h1
    · intro e h
      injection h with h1
      exact Or.inr (h1 ▸ hcons)
  | handoffOk a rest te0 out fe cl cc pu po =>
    have hps : te0 = te ∧ rows = pu ++ (a :: rest) := hInv.prodSend a rest te0 rfl
    have hpo : po = pu := hInv.popEq
    have hout : out = List.map render po := hInv.consRun out rfl
    have hfe : fe = none := by
      cases hfe0 : fe with
      | none => rfl
      | some e =>
        rcases hInv.errTask e hfe0 with h | ⟨o, h⟩
        · exact ProdState.noConfusion h
        · exact ConsState.noConfusion h
    refine
      { popEq := by rw [hpo]
        pushPrefix := ⟨rest, by rw [hps.2]; simp⟩
        consRun := ?_
        consClean := fun o h => ConsState.noConfusion h
        consPrefix := fun o r h => ConsState.noConfusion h
        consResOk := fun o r h => ConsState.noConfusion h
        consErrSet := fun o e h => ConsState.noConfusion h
        closedIff := ?_
        countEq := hInv.countEq
        prodFetch := ?_
        prodSend := ?_
        prodDone := ?_
        prodErr := ?_
        errTask := ?_ }
    · intro o h
      injection h with h1
      rw [← h1, hout, hpo]
      simp
    · constructor
      · intro h
        rcases hInv.closedIff.mp h with ⟨r, hr⟩
        exact ProdState.noConfusion hr
      · rintro ⟨r, hr⟩
        exact ProdState.noConfusion hr
    · intro rem te' h
      injection h with h1 h2
      subst h1; subst h2
      exact ⟨hps.1, by rw [hps.2]; simp⟩
    · intro a' rem te' h
      exact ProdState.noConfusion h
    · intro r h
      exact ProdState.noConfusion h
    · intro e h
      exact ProdState.noConfusion h
    · intro e h
      rw [hfe] at h
      exact Option.noConfusion h
  | handoffFail a rest te0 out fe cl cc pu po =>
    have hps : te0 = te ∧ rows = pu ++ (a :: rest) := hInv.prodSend a rest te0 rfl
    have hpo : po = pu := hInv.popEq
    have hout : out = List.map render po := hInv.consRun out rfl
    have hfe : fe = none := by
      cases hfe0 : fe with
      | none => rfl
      | some e =>
        rcases hInv.errTask e hfe0 with h | ⟨o, h⟩
        · exact ProdState.noConfusion h
        · exact ConsState.noConfusion h
    refine
      { popEq := by rw [hpo]
        pushPrefix := ⟨rest, by rw [hps.2]; simp⟩
        consRun := fun o h => ConsState.noConfusion h
        consClean := ?_
        consPrefix := ?_
        consResOk := ?_
        consErrSet := ?_
        closedIff := ?_
        countEq := hInv.countEq
        prodFetch := ?_
        prodSend := ?_
        prodDone := ?_
        prodErr := ?_
        errTask := ?_ }
    · intro o h
      injection h with h1 h2
      exact Option.noConfusion h2
    · intro o r h
      injection h with h1 h2
      exact ⟨[render a], by rw [← h1, hout, hpo]; simp⟩
    · intro o r h
      injection h with h1 h2
      exact Or.inr h2.symm
    · intro o e h hn
      rw [hfe] at hn
      exact Option.noConfusion hn
    · constructor
      · intro h
        rcases hInv.closedIff.mp h with ⟨r, hr⟩
        exact ProdState.noConfusion hr
      · rintro ⟨r, hr⟩
        exact ProdState.noConfusion hr
    · intro rem te' h
      injection h with h1 h2
      subst h1; subst h2
      exact ⟨hps.1, by rw [hps.2]; simp⟩
    · intro a' rem te' h
      exact ProdState.noConfusion h
    · intro r h
      exact ProdState.noConfusion h
    · intro e h
      exact ProdState.noConfusion h
    · intro e h
      exact Or.inr ⟨out, rfl⟩
  | consFail prod0 out fe cl cc pu po =>
    have hout : out = List.map render po := hInv.consRun out rfl
    refine
      { popEq := hInv.popEq
        pushPrefix := hInv.pushPrefix
        consRun := fun o h => ConsState.noConfusion h
        consClean := ?_
        consPrefix := ?_
        consResOk := ?_
        consErrSet := ?_
        closedIff := hInv.closedIff
        countEq := hInv.countEq
        prodFetch := hInv.prodFetch
        prodSend := hInv.prodSend
        prodDone := ?_
        prodErr := ?_
        errTask := ?_ }
    · intro o h
      injection h with h1 h2
      exact Option.noConfusion h2
    · intro o r h
      have h1 : out = o ∧ some Err.sinkWrite = r := ConsState.done.inj h
      rw [← h1.1, hout]
    · intro o r h
      have h1 : out = o ∧ some Err.sinkWrite = r := ConsState.done.inj h
      exact Or.inr h1.2.symm
    · intro o e h hn
      cases hfe0 : fe with
      | none => rw [hfe0] at hn; exact Option.noConfusion hn
      | some e2 => rw [hfe0] at hn; exact Option.noConfusion hn
    · intro r h
      rcases hInv.prodDone r h with h1 | ⟨h1, h2⟩
      · exact Or.inl h1
      · refine Or.inr ⟨h1, ?_⟩
        cases hfe0 : fe with
        | none => intro hn; exact Option.noConfusion hn
        | some e2 => intro hn; exact Option.noConfusion hn
    · intro e h
      have h2 : fe = some e := hInv.prodErr e h
      show report fe (some Err.sinkWrite) = some e
      rw [h2, report_some]
    · intro e h
      cases hfe0 : fe with
      | none =>
        exact Or.inr ⟨out, rfl⟩
      | some e2 =>
        have h1 : some e2 = some e := by
          have h3 : report fe (some Err.sinkWrite) = some e := h
          rwa [hfe0, report_some] at h3
        rcases hInv.errTask e2 hfe0 with h2 | ⟨o, h2⟩
        · exact Or.inl (by rw [← Option.some.inj h1]; exact h2)
        · exact ConsState.noConfusion h2
  | consEOS r out fe cc pu po =>
    have hout : out = List.map render po := hInv.consRun out rfl
    refine
      { popEq := hInv.popEq
        pushPrefix := hInv.pushPrefix
        consRun := fun o h => ConsState.noConfusion h
        consClean := ?_
        consPrefix := ?_
        consResOk := ?_
        consErrSet := ?_
        closedIff := ⟨fun _ => ⟨r, rfl⟩, fun _ => rfl⟩
        countEq := hInv.countEq
        prodFetch := hInv.prodFetch
        prodSend := hInv.prodSend
        prodDone := hInv.prodDone
        prodErr := hInv.prodErr
        errTask := ?_ }
    · intro o h
      injection h with h1 h2
      rw [← h1]
      exact hout
    · intro o r0 h
      have h1 : out = o ∧ (none : Option Err) = r0 := ConsState.done.inj h
      rw [← h1.1, hout]
    · intro o r0 h
      have h1 : out = o ∧ (none : Option Err) = r0 := ConsState.done.inj h
      exact Or.inl h1.2.symm
    · intro o e h
      have h1 : out = o ∧ (none : Option Err) = some e := ConsState.done.inj h
      exact Option.noConfusion h1.2
    · intro e h
      rcases hInv.errTask e h with h1 | ⟨o, h1⟩
      · exact Or.inl h1
      · exact ConsState.noConfusion h1

theorem reachable_pipeInv {A : Type} {render : A → String} {rows : List A}
    {te : Option Err} {s : PipeState A}
    (h : Reachable render (init rows te) s) : PipeInv render rows te s := by
  induction h with
  | refl => exact pipeInv_init render rows te
  | tail _ hstep ih => exact pipeInv_step ih hstep

/-- Helper run: empty cursor that fails immediately with a read error; the
producer returns the error and closes the channel. -/
theorem reach_err_done :
    Reachable rowText (init ([] : List Unit) (some Err.sourceRead))
      ⟨ProdState.done (some Err.sourceRead), ConsState.run [], some Err.sourceRead,
        true, 1, [], []⟩ :=
  Relation.ReflTransGen.single
    (Step.fetchEOF (some Err.sourceRead) (ConsState.run []) false 0 [] [])

/-- Helper run: continuation of `reach_err_done` where the consumer then
observes end-of-stream and returns nil. -/
theorem reach_err_term :
    Reachable rowText (init ([] : List Unit) (some Err.sourceRead))
      ⟨ProdState.done (some Err.sourceRead), ConsState.done [] none, some Err.sourceRead,
        true, 1, [], []⟩ :=
  Relation.ReflTransGen.head
    (Step.fetchEOF (some Err.sourceRead) (ConsState.run []) false 0 [] [])
    (Relation.ReflTransGen.single
      (Step.consEOS (some Err.sourceRead) [] (some Err.sourceRead) 1 [] []))

/-- Helper run: empty cursor, clean exhaustion, consumer observes
end-of-stream; a fully successful pipeline. -/
theorem reach_ok_term :
    Reachable rowText (init ([] : List Unit) none)
      ⟨ProdState.done none, ConsState.done [] none, none, true, 1, [], []⟩ :=
  Relation.ReflTransGen.head
    (Step.fetchEOF none (ConsState.run []) false 0 [] [])
    (Relation.ReflTransGen.single (Step.consEOS none [] none 1 [] []))

/-- C1: for every finite row source of length n, a streaming pipeline run
(`generateStreamingMarkdown` or `generateStreamingStringMarkdown`,
instantiating `render` with the respective row body) that completes without
error has rendered exactly one formatted row per source row, in source
order. -/
theorem c1_streaming_emits_all_rows {A : Type} (render : A → String) (rows : List A)
    (s : PipeState A) (hr : Reachable render (init rows none) s) (ht : Terminal s)
    (he : s.firstErr = none) :
    rendered s.cons = List.map render rows ∧ (rendered s.cons).length = rows.length := by
  have hInv := reachable_pipeInv hr
  obtain ⟨⟨r, hp⟩, out, rr, hc⟩ := ht
  have hrr : rr = none := by
    rcases hInv.consResOk out rr hc with h | h
    · exact h
    · subst h
      exact absurd he (hInv.consErrSet out Err.sinkWrite hc)
  subst hrr
  have hclean : out = List.map render s.popped := hInv.consClean out hc
  have hpr : s.pushed = rows := by
    rcases hInv.prodDone r hp with ⟨-, h2⟩ | ⟨-, h2⟩
    · exact h2
    · exact absurd he h2
  have hrend : rendered s.cons = out := by rw [hc, rendered_done]
  constructor
  · rw [hrend, hclean, hInv.popEq, hpr]
  · rw [hrend, hclean, hInv.popEq, hpr, List.length_map]

/-- C1 witness: the structured streaming pipeline on the one-row source
`[c6user]`, run to completion, has rendered exactly that row's body. -/
theorem c1_witness :
    rendered (ConsState.done [renderUserRow c6user] none) =
        List.map renderUserRow [c6user] ∧
      (rendered (ConsState.done [renderUserRow c6user] none)).length =
        ([c6user] : List User).length := by
  have hreach : Reachable renderUserRow (init [c6user] none)
      ⟨ProdState.done none, ConsState.done [renderUserRow c6user] none, none, true, 1,
        [c6user], [c6user]⟩ := by
    refine Relation.ReflTransGen.head
      (Step.fetchRow c6user [] none (ConsState.run []) false 0 [] []) ?_
    refine Relation.ReflTransGen.head
      (Step.handoffOk c6user [] none [] none false 0 [] []) ?_
    refine Relation.ReflTransGen.head
      (Step.fetchEOF none (ConsState.run [renderUserRow c6user]) false 0 [c6user] [c6user]) ?_
    exact Relation.ReflTransGen.single
      (Step.consEOS none [renderUserRow c6user] none 1 [c6user] [c6user])
  exact c1_streaming_emits_all_rows renderUserRow [c6user] _ hreach
    ⟨⟨none, rfl⟩, [renderUserRow c6user], none, rfl⟩ rfl

/-- C2: evaluation of `generateMarkdown` at the failing input — the scan
loop succeeds, `tmpl.Execute` fails with a sink-write error after partial
output, and `writeProfile` succeeds — showing the run returns nil: the
Execute error is silently dropped because `err` is reassigned from
`writeProfile` before being checked (src/main.go lines 218-224). -/
theorem c2_generate_markdown_drops_execute_error :
    generateMarkdown none none none (some Err.sinkWrite) none none = none := rfl

/-- C3: in a streaming run whose producer pushed all `k` rows of the cursor
and then returned a read/decode error `e`, the errgroup records `e`, the run
returns `e` (before `writeProfile` is even attempted), and the consumer has
rendered at most the `k` pushed rows, each one a pushed row in push order. -/
theorem c3_producer_error_after_k_rows {A : Type} (render : A → String) (rows : List A)
    (e : Err) (s : PipeState A) (hr : Reachable render (init rows (some e)) s)
    (ht : Terminal s) (hp : s.prod = ProdState.done (some e)) :
    s.firstErr = some e ∧ rendered s.cons <+: List.map render rows ∧
      (rendered s.cons).length ≤ rows.length ∧
      ∀ pe, streamingRunResult s pe = some e := by
  have hInv := reachable_pipeInv hr
  obtain ⟨-, out, rr, hc⟩ := ht
  have hfe : s.firstErr = some e := hInv.prodErr e hp
  have hpre : out <+: List.map render s.popped := hInv.consPrefix out rr hc
  have hrend : rendered s.cons = out := by rw [hc, rendered_done]
  have hmain : rendered s.cons <+: List.map render rows := by
    rw [hrend]
    refine hpre.trans ?_
    rw [hInv.popEq]
    exact prefixMap render hInv.pushPrefix
  refine ⟨hfe, hmain, ?_, fun pe => ?_⟩
  · have hlen := hmain.length_le
    rwa [List.length_map] at hlen
  · simp [streamingRunResult, hfe]

/-- C3 witness: the run of `reach_err_term` (producer fails after pushing 0
rows) applied to the theorem. -/
theorem c3_witness :
    (⟨ProdState.done (some Err.sourceRead), ConsState.done [] none, some Err.sourceRead,
        true, 1, [], []⟩ : PipeState Unit).firstErr = some Err.sourceRead ∧
      rendered (ConsState.done [] none) <+: List.map rowText ([] : List Unit) ∧
      (rendered (ConsState.done [] none)).length ≤ ([] : List Unit).length ∧
      ∀ pe, streamingRunResult
        (⟨ProdState.done (some Err.sourceRead), ConsState.done [] none, some Err.sourceRead,
          true, 1, [], []⟩ : PipeState Unit) pe = some Err.sourceRead :=
  c3_producer_error_after_k_rows rowText [] Err.sourceRead _ reach_err_term
    ⟨⟨some Err.sourceRead, rfl⟩, [], none, rfl⟩ rfl

/-- C4 counterexample: the claim that the producer checks the cancellation
signal before each push — so that from any state with the signal set no push
step can fire — is false for this code: the send `c <- user` is unguarded,
and the `Step` relation admits a completed push from a state whose
cancellation signal (`firstErr`) is set. -/
theorem c4_counterexample :
    ¬ ∀ (s s' : PipeState Unit), Step rowText s s' → s.firstErr.isSome = true →
        s'.pushed = s.pushed := by
  intro hclaim
  have h := hclaim
    ⟨ProdState.send () [] none, ConsState.run [], some Err.sinkWrite, false, 0, [], []⟩
    ⟨ProdState.fetch [] none, ConsState.run [rowText ()], some Err.sinkWrite, false, 0,
      [()], [()]⟩
    (Step.handoffOk () [] none [] (some Err.sinkWrite) false 0 [] []) rfl
  exact absurd h (by decide)

/-- C4 amended: in every reachable state of a run, once the cancellation
signal is set, no step pushes a further item onto the channel and no step
fetches a further row from the source (the producer observes cancellation at
its next `rows.Next()` rather than before the push, but by then either it
has already returned or the consumer has stopped receiving, so no push
completes). -/
theorem c4_no_fetch_no_push_after_cancel {A : Type} (render : A → String) (rows : List A)
    (te : Option Err) (s s' : PipeState A) (hr : Reachable render (init rows te) s)
    (he : s.firstErr.isSome = true) (hs : Step render s s') :
    s'.pushed = s.pushed ∧ fetchedRows s' = fetchedRows s := by
  have hInv := reachable_pipeInv hr
  obtain ⟨e, hfe⟩ := Option.isSome_iff_exists.mp he
  have htask := hInv.errTask e hfe
  cases hs with
  | fetchRow a rest te0 cons cl cc pu po =>
    exact Option.noConfusion hfe
  | fetchEOF te0 cons cl cc pu po =>
    exact Option.noConfusion hfe
  | fetchCancelled rem te0 e0 cons cl cc pu po =>
    exact ⟨rfl, rfl⟩
  | handoffOk a rest te0 out fe cl cc pu po =>
    rcases htask with h | ⟨o, h⟩
    · exact ProdState.noConfusion h
    · exact ConsState.noConfusion h
  | handoffFail a rest te0 out fe cl cc pu po =>
    rcases htask with h | ⟨o, h⟩
    · exact ProdState.noConfusion h
    · exact ConsState.noConfusion h
  | consFail prod0 out fe cl cc pu po =>
    exact ⟨rfl, rfl⟩
  | consEOS r out fe cc pu po =>
    exact ⟨rfl, rfl⟩

/-- C4 witness: after the producer of `reach_err_done` has failed (signal
set), the only remaining step — the consumer observing end-of-stream —
pushes nothing and fetches nothing. -/
theorem c4_witness :
    (⟨ProdState.done (some Err.sourceRead), ConsState.done [] none, some Err.sourceRead,
        true, 1, [], []⟩ : PipeState Unit).pushed =
      (⟨ProdState.done (some Err.sourceRead), ConsState.run [], some Err.sourceRead,
        true, 1, [], []⟩ : PipeState Unit).pushed ∧
      fetchedRows (⟨ProdState.done (some Err.sourceRead), ConsState.done [] none,
        some Err.sourceRead, true, 1, [], []⟩ : PipeState Unit) =
      fetchedRows (⟨ProdState.done (some Err.sourceRead), ConsState.run [],
        some Err.sourceRead, true, 1, [], []⟩ : PipeState Unit) :=
  c4_no_fetch_no_push_after_cancel rowText [] (some Err.sourceRead) _ _ reach_err_done rfl
    (Step.consEOS (some Err.sourceRead) [] (some Err.sourceRead) 1 [] [])

/-- C5 counterexample: closing a Go channel is not idempotent — the first
close of a fresh channel succeeds, but closing the already-closed channel
panics, refuting "closing the bounded channel twice does not panic". -/
theorem c5_counterexample :
    closeChan (Chan.mk ([] : List Unit) false) = CloseResult.ok (Chan.mk [] true) ∧
      closeChan (Chan.mk ([] : List Unit) true) = CloseResult.panicked :=
  ⟨rfl, rfl⟩

/-- C5 amended: a double close never happens: in every reachable state the
deferred `close(c)` has run at most once, in every completed run exactly
once, and the consumer's own result is clean end-of-stream (nil) unless its
own sink write failed — never an artifact of the close. -/
theorem c5_close_exactly_once {A : Type} (render : A → String) (rows : List A)
    (te : Option Err) (s : PipeState A) (hr : Reachable render (init rows te) s) :
    s.closeCount ≤ 1 ∧ (Terminal s → s.closeCount = 1) ∧
      ∀ out r, s.cons = ConsState.done out r → r = none ∨ r = some Err.sinkWrite := by
  have hInv := reachable_pipeInv hr
  refine ⟨?_, ?_, hInv.consResOk⟩
  · rw [hInv.countEq]
    split <;> omega
  · rintro ⟨⟨r, hp⟩, -⟩
    rw [hInv.countEq, if_pos (hInv.closedIff.mpr ⟨r, hp⟩)]

/-- C5 witness: the completed successful run of `reach_ok_term`. -/
theorem c5_witness :
    (⟨ProdState.done none, ConsState.done [] none, none, true, 1, [], []⟩ :
        PipeState Unit).closeCount ≤ 1 ∧
      (Terminal (⟨ProdState.done none, ConsState.done [] none, none, true, 1, [], []⟩ :
        PipeState Unit) →
        (⟨ProdState.done none, ConsState.done [] none, none, true, 1, [], []⟩ :
          PipeState Unit).closeCount = 1) ∧
      ∀ out r, (⟨ProdState.done none, ConsState.done [] none, none, true, 1, [], []⟩ :
        PipeState Unit).cons = ConsState.done out r → r = none ∨ r = some Err.sinkWrite :=
  c5_close_exactly_once rowText [] none _ reach_ok_term

/-- C6 counterexample: for the scenario row, the string-variant pipeline
(`markdownStringTemplate` over the SQL-concatenated line) emits the row
`"|a@x.com|A|B|1 St|C|00000|"` — without the spaces around each field — so
its rendered row is not the claimed
`"| a@x.com | A | B | 1 St | C | 00000 |"`. -/
theorem c6_counterexample :
    stringTemplateItem (sqlRowString c6user) = "|a@x.com|A|B|1 St|C|00000|" ∧
      stringTemplateItem (sqlRowString c6user) ≠ "| a@x.com | A | B | 1 St | C | 00000 |" :=
  ⟨rfl, by decide⟩

/-- C6 amended: on the scenario row, the structured variant renders the
constant header and separator lines followed by exactly one row
`"| a@x.com | A | B | 1 St | C | 00000 |"` (preceded by the template's
newline), while the string variant renders the same header followed by
exactly one row `"|a@x.com|A|B|1 St|C|00000|"`, with no spaces around the
fields. -/
theorem c6_end_to_end_amended :
    renderMarkdownTemplate [c6user] =
      "\n| Email | First Name | Last Name | Address | City | Zip |\n|-------|------------|-----------|---------|------|-----|\n\n| a@x.com | A | B | 1 St | C | 00000 |\n" ∧
      renderStringMarkdownTemplate [sqlRowString c6user] =
      "\n| Email | First Name | Last Name | Address | City | Zip |\n|-------|------------|-----------|---------|------|-----|\n|a@x.com|A|B|1 St|C|00000|\n" :=
  ⟨rfl, rfl⟩

/-- C7: in every reachable state of every run, the unbuffered channel holds
no more items than its capacity (zero: every send completes only as a
rendezvous with a receive), and delivery is strict FIFO — the list of items
popped so far is exactly the list of items pushed so far, so the Nth popped
item is the Nth pushed item. -/
theorem c7_fifo_and_capacity {A : Type} (render : A → String) (rows : List A)
    (te : Option Err) (s : PipeState A) (hr : Reachable render (init rows te) s) :
    s.popped = s.pushed ∧ inFlight s ≤ chanCapacity ∧
      ∀ n, s.popped.get? n = s.pushed.get? n := by
  have hInv := reachable_pipeInv hr
  refine ⟨hInv.popEq, ?_, fun n => by rw [hInv.popEq]⟩
  show s.pushed.length - s.popped.length ≤ 0
  rw [hInv.popEq]
  omega

/-- C7 witness: the initial state of any run. -/
theorem c7_witness :
    (init ([] : List Unit) none).popped = (init ([] : List Unit) none).pushed ∧
      inFlight (init ([] : List Unit) none) ≤ chanCapacity ∧
      ∀ n, (init ([] : List Unit) none).popped.get? n =
        (init ([] : List Unit) none).pushed.get? n :=
  c7_fifo_and_capacity rowText [] none _ Relation.ReflTransGen.refl

/-- C8: every completed run — clean exhaustion or read/decode failure — has
closed the channel exactly once (the deferred close runs on every producer
exit path, never twice), and, when the producer returned a read/decode
error, that error is the recorded pipeline error. -/
theorem c8_single_close_and_error_report {A : Type} (render : A → String) (rows : List A)
    (te : Option Err) (s : PipeState A) (hr : Reachable render (init rows te) s)
    (ht : Terminal s) :
    s.closeCount = 1 ∧ s.chanClosed = true ∧
      ∀ e, s.prod = ProdState.done (some e) → s.firstErr = some e := by
  have hInv := reachable_pipeInv hr
  obtain ⟨⟨r, hp⟩, -⟩ := ht
  have hcl : s.chanClosed = true := hInv.closedIff.mpr ⟨r, hp⟩
  exact ⟨by rw [hInv.countEq, if_pos hcl], hcl, hInv.prodErr⟩

/-- C8 witness: the completed failing run of `reach_err_term`. -/
theorem c8_witness :
    (⟨ProdState.done (some Err.sourceRead), ConsState.done [] none, some Err.sourceRead,
        true, 1, [], []⟩ : PipeState Unit).closeCount = 1 ∧
      (⟨ProdState.done (some Err.sourceRead), ConsState.done [] none, some Err.sourceRead,
        true, 1, [], []⟩ : PipeState Unit).chanClosed = true ∧
      ∀ e, (⟨ProdState.done (some Err.sourceRead), ConsState.done [] none,
        some Err.sourceRead, true, 1, [], []⟩ : PipeState Unit).prod =
          ProdState.done (some e) →
        (⟨ProdState.done (some Err.sourceRead), ConsState.done [] none, some Err.sourceRead,
          true, 1, [], []⟩ : PipeState Unit).firstErr = some e :=
  c8_single_close_and_error_report rowText [] (some Err.sourceRead) _ reach_err_term
    ⟨⟨some Err.sourceRead, rfl⟩, [], none, rfl⟩

/-- C9: the channel carries only row values, never errors, so when the
producer aborts with error `e` the error reaches the caller exclusively
through the errgroup: the run's outcome is `e` for every profile-write
outcome, and the consumer's own result is never a source error — it is nil
(clean end-of-stream) unless its own sink write failed. -/
theorem c9_error_via_coordinator_only {A : Type} (render : A → String) (rows : List A)
    (e : Err) (s : PipeState A) (hr : Reachable render (init rows (some e)) s)
    (hp : s.prod = ProdState.done (some e)) :
    s.firstErr = some e ∧ (∀ pe, streamingRunResult s pe = some e) ∧
      ∀ out r, s.cons = ConsState.done out r → r = none ∨ r = some Err.sinkWrite := by
  have hInv := reachable_pipeInv hr
  have hfe := hInv.prodErr e hp
  refine ⟨hfe, fun pe => ?_, hInv.consResOk⟩
  simp [streamingRunResult, hfe]

/-- C9 witness: the completed failing run of `reach_err_term`: the consumer
ended with nil, the outcome is the producer's read error. -/
theorem c9_witness :
    (⟨ProdState.done (some Err.sourceRead), ConsState.done [] none, some Err.sourceRead,
        true, 1, [], []⟩ : PipeState Unit).firstErr = some Err.sourceRead ∧
      (∀ pe, streamingRunResult (⟨ProdState.done (some Err.sourceRead),
        ConsState.done [] none, some Err.sourceRead, true, 1, [], []⟩ : PipeState Unit) pe =
        some Err.sourceRead) ∧
      ∀ out r, (⟨ProdState.done (some Err.sourceRead), ConsState.done [] none,
        some Err.sourceRead, true, 1, [], []⟩ : PipeState Unit).cons =
          ConsState.done out r →
        r = none ∨ r = some Err.sinkWrite :=
  c9_error_via_coordinator_only rowText [] Err.sourceRead _ reach_err_term rfl

/-- C10: even when both goroutines of a streaming run return nil (no
recorded pipeline error), the run can still return a non-nil error: if the
trailing heap-profile write fails, that error becomes the run's outcome —
through the very same returned `error` value a pipeline error would use —
while a successful profile write yields nil. -/
theorem c10_profile_error_after_success {A : Type} (render : A → String) (rows : List A)
    (s : PipeState A) (out : List String) (e : Err)
    (hr : Reachable render (init rows none) s)
    (hp : s.prod = ProdState.done none) (hc : s.cons = ConsState.done out none) :
    s.firstErr = none ∧ streamingRunResult s (writeProfile none (some e)) = some e ∧
      streamingRunResult s (writeProfile none none) = none := by
  have hInv := reachable_pipeInv hr
  have hfe : s.firstErr = none := by
    cases hfe0 : s.firstErr with
    | none => rfl
    | some e0 =>
      rcases hInv.errTask e0 hfe0 with h | ⟨o, h⟩
      · rw [hp] at h
        exact Option.noConfusion (ProdState.done.inj h)
      · rw [hc] at h
        exact Option.noConfusion (ConsState.done.inj h).2
  refine ⟨hfe, ?_, ?_⟩ <;> simp [streamingRunResult, writeProfile, hfe]

/-- C10 witness: the fully successful run of `reach_ok_term`, with a failing
heap-profile write. -/
theorem c10_witness :
    (⟨ProdState.done none, ConsState.done [] none, none, true, 1, [], []⟩ :
        PipeState Unit).firstErr = none ∧
      streamingRunResult (⟨ProdState.done none, ConsState.done [] none, none, true, 1,
        [], []⟩ : PipeState Unit) (writeProfile none (some Err.profileWrite)) =
        some Err.profileWrite ∧
      streamingRunResult (⟨ProdState.done none, ConsState.done [] none, none, true, 1,
        [], []⟩ : PipeState Unit) (writeProfile none none) = none :=
  c10_profile_error_after_success rowText [] _ [] Err.profileWrite reach_ok_term rfl rfl
